import Mathlib

/-!
Verification of the requests-html library's local logic (src/requests_html.py):
link absolutization, next-page heuristics, link collection, encoding fallback,
render retry, and the shared default next-symbol list.  Python strings are
modelled as Lean `String`, bytes as `String`, dictionaries with optional keys
as `Option`-valued fields, exceptions as `Except`, and mutable attributes as
explicit state passing.  External libraries (pyquery/lxml selector engines,
w3lib encoding sniffing, urllib.parse.urljoin, the headless browser) enter the
model as function parameters or as faithful re-implementations of the stdlib
routines the code calls.
-/

namespace RequestsHTML

/-! ## Python string primitives -/

/-- Models Python string equality of a leading segment: `leadMatch p s` is true
iff `p` is an initial segment of `s` (used for `str.startswith`). -/
def leadMatch : List Char → List Char → Bool
  | [], _ => true
  | _ :: _, [] => false
  | a :: as, b :: bs => a = b && leadMatch as bs

/-- Models Python's substring test `needle in hay` on character lists. -/
def charsIn (needle : List Char) : List Char → Bool
  | [] => needle.isEmpty
  | c :: rest => leadMatch needle (c :: rest) || charsIn needle rest

/-- Models Python's `needle in hay` for strings. -/
def strIn (needle hay : String) : Bool :=
  charsIn needle.toList hay.toList

/-- Models Python's `s.startswith(p)`. -/
def strStarts (p s : String) : Bool :=
  leadMatch p.toList s.toList

/-- Models Python's `s.lower()` (ASCII case folding). -/
def strLower (s : String) : String :=
  String.mk (s.toList.map Char.toLower)

/-- Models Python's `s.strip()`: drop whitespace from both ends. -/
def pyStrip (s : String) : String :=
  String.mk
    (((s.toList.dropWhile Char.isWhitespace).reverse.dropWhile
        Char.isWhitespace).reverse)

/-- Models Python's `s.split(sep)` for a one-character separator: always
non-empty, `''.split(c) == ['']`. -/
def splitChar (c : Char) : List Char → List (List Char)
  | [] => [[]]
  | x :: xs =>
    if x = c then [] :: splitChar c xs
    else
      match splitChar c xs with
      | h :: t => (x :: h) :: t
      | [] => [[x]]

/-- Models Python's `sep.join(pieces)` for a one-character separator. -/
def joinChar (c : Char) : List (List Char) → List Char
  | [] => []
  | [x] => x
  | x :: y :: t => x ++ c :: joinChar c (y :: t)

/-- Python truthiness of an optional string: `None` and `''` are falsy. -/
def truthyOS : Option String → Bool
  | none => false
  | some s => s ≠ ""

/-! ## Model of urllib.parse (urlparse / urlunparse)

The library calls `urlparse`, `urlunparse` and `urljoin` from the Python
standard library.  `urlparse`/`urlunparse` are re-implemented here following
CPython's `urllib.parse` (control-character stripping and IPv6 bracket
validation are omitted); `urljoin` is kept as an explicit function parameter
wherever the code calls it, with a simplified executable model provided for
concrete witnesses. -/

/-- Split a character list at the first occurrence of `c`
(Python `s.split(c, 1)`'s two pieces, `none` when `c` does not occur). -/
def splitFirst (c : Char) : List Char → Option (List Char × List Char)
  | [] => none
  | x :: xs =>
    if x = c then some ([], xs)
    else
      match splitFirst c xs with
      | some (a, b) => some (x :: a, b)
      | none => none

/-- Split a character list at the last occurrence of `c`. -/
def splitLast (c : Char) (l : List Char) : Option (List Char × List Char) :=
  match splitFirst c l.reverse with
  | some (a, b) => some (b.reverse, a.reverse)
  | none => none

/-- CPython's `scheme_chars`: letters, digits, `+`, `-`, `.`. -/
def schemeChar (c : Char) : Bool :=
  c.isAlphanum || c = '+' || c = '-' || c = '.'

/-- Result of `urllib.parse.urlsplit`. -/
structure SplitResult where
  scheme : String
  netloc : String
  path : String
  query : String
  fragment : String
  deriving DecidableEq, Repr

/-- Result of `urllib.parse.urlparse` (urlsplit plus the `params`
component split out of the last path segment). -/
structure ParseResult where
  scheme : String
  netloc : String
  path : String
  params : String
  query : String
  fragment : String
  deriving DecidableEq, Repr

/-- Models CPython `urllib.parse.urlsplit`: scheme up to the first `:` when the
prefix is a valid scheme, `//netloc` delimited by `/`, `?` or `#`, then the
fragment after the first `#` and the query after the first `?`. -/
def urlsplit (url : String) : SplitResult :=
  let u0 := url.toList
  let sp :=
    match splitFirst ':' u0 with
    | some (pre, rest) =>
      match pre with
      | [] => (([] : List Char), u0)
      | c :: _ =>
        if c.isAlpha && pre.all schemeChar then (pre.map Char.toLower, rest)
        else (([] : List Char), u0)
    | none => (([] : List Char), u0)
  let scheme := sp.1
  let u1 := sp.2
  let np :=
    match u1 with
    | '/' :: '/' :: rest =>
      let n := rest.takeWhile (fun c => !(c = '/' || c = '?' || c = '#'))
      (n, rest.drop n.length)
    | _ => (([] : List Char), u1)
  let netloc := np.1
  let u2 := np.2
  let fp :=
    match splitFirst '#' u2 with
    | some (a, b) => (a, b)
    | none => (u2, ([] : List Char))
  let u3 := fp.1
  let fragment := fp.2
  let qp :=
    match splitFirst '?' u3 with
    | some (a, b) => (a, b)
    | none => (u3, ([] : List Char))
  ⟨String.mk scheme, String.mk netloc, String.mk qp.1, String.mk qp.2,
    String.mk fragment⟩

/-- Models CPython `urllib.parse._splitparams`: split the `params` component
off after the first `;` of the last path segment. -/
def splitParams (u : List Char) : List Char × List Char :=
  match splitLast '/' u with
  | some (before, after) =>
    (match splitFirst ';' after with
     | some (a, b) => (before ++ '/' :: a, b)
     | none => (u, []))
  | none =>
    match splitFirst ';' u with
    | some (a, b) => (a, b)
    | none => (u, [])

/-- Models CPython `urllib.parse.urlparse`. -/
def urlparse (url : String) : ParseResult :=
  let s := urlsplit url
  let pp :=
    if s.path.toList.contains ';' then splitParams s.path.toList
    else (s.path.toList, [])
  ⟨s.scheme, s.netloc, String.mk pp.1, String.mk pp.2, s.query, s.fragment⟩

/-- Models CPython `urllib.parse.urlunsplit`. -/
def urlunsplit (scheme netloc path query fragment : String) : String :=
  let url := path
  let url :=
    if netloc ≠ "" || (url ≠ "" && strStarts "//" url) then
      let u2 := if url ≠ "" && !strStarts "/" url then "/" ++ url else url
      "//" ++ netloc ++ u2
    else url
  let url := if scheme ≠ "" then scheme ++ ":" ++ url else url
  let url := if query ≠ "" then url ++ "?" ++ query else url
  if fragment ≠ "" then url ++ "#" ++ fragment else url

/-- Models CPython `urllib.parse.urlunparse`. -/
def urlunparse (p : ParseResult) : String :=
  let path := if p.params ≠ "" then p.path ++ ";" ++ p.params else p.path
  urlunsplit p.scheme p.netloc path p.query p.fragment

/-- Simplified executable model of `urllib.parse.urljoin` (RFC 3986 merge
without dot-segment normalization).  The library treats `urljoin` as an
external stdlib call, so the definitions below take the join function as a
parameter; this model only instantiates that parameter in concrete
witnesses and counterexamples. -/
def urljoin_model (base link : String) : String :=
  if link = "" then base
  else
    let b := urlparse base
    let l := urlparse link
    if l.scheme ≠ "" then link
    else if l.netloc ≠ "" then urlunparse { l with scheme := b.scheme }
    else if strStarts "/" l.path then
      urlunparse { l with scheme := b.scheme, netloc := b.netloc }
    else
      let dir := joinChar '/' ((splitChar '/' b.path.toList).dropLast)
      urlunparse
        { l with scheme := b.scheme, netloc := b.netloc,
                 path := String.mk (dir ++ '/' :: l.path.toList) }

/-! ## Data model of documents and elements

An `Anchor` models an `Element` wrapping an `<a>` node: `href` is
`attrs.get('href')` (`none` when the attribute is absent), `rel` and
`classes` are the whitespace-split `rel`/`class` attributes as produced by
`Element.attrs` (the empty list when absent, matching `attrs.get(_, [])`),
and `fullText` is `Element.full_text` (`lxml`'s `text_content()`).
A `Doc` models an `HTML` document: `anchors` is the result of the pyquery
selection `self.pq('a')` in document order, `bases` the `href` attributes of
the `<base>` elements in document order, and `url` the document's URL. -/

structure Anchor where
  href : Option String
  rel : List String
  classes : List String
  fullText : String
  deriving DecidableEq, Repr

structure Doc where
  anchors : List Anchor
  bases : List (Option String)
  url : String
  deriving DecidableEq, Repr

/-! ## BaseParser.find (selector 'a'), _get_first_or_list -/

/-- The `containing` test of `BaseParser.find`:
`any([c.lower() in element.full_text.lower() for c in containing])`. -/
def matchesContaining (containing : List String) (a : Anchor) : Bool :=
  containing.any (fun c => strIn (strLower c) (strLower a.fullText))

/-- Models `BaseParser.find('a', containing=...)` before `_get_first_or_list`:
the pyquery matches (in document order) are filtered by the `containing`
test with an imperative append loop, then the list is reversed in place.
`containing = []` models both `containing=None` and an empty list (both are
falsy, skipping the filter). -/
def find_a (anchors : List Anchor) (containing : List String) : List Anchor :=
  if containing.isEmpty then anchors
  else
    (anchors.foldl
      (fun acc e => if matchesContaining containing e then acc ++ [e] else acc)
      []).reverse

/-- Return type of `find`/`xpath`: a single optional element
(`first=True`) or a list (`first=False`). -/
inductive FindResult (α : Type) where
  | one : Option α → FindResult α
  | many : List α → FindResult α
  deriving DecidableEq, Repr

/-- Models `_get_first_or_list`: with `first`, `l[0]` with `IndexError`
mapped to `None`; otherwise the list itself. -/
def get_first_or_list (l : List α) (first : Bool) : FindResult α :=
  if first then
    match l with
    | [] => FindResult.one none
    | x :: _ => FindResult.one (some x)
  else FindResult.many l

/-- Models `BaseParser.find('a', containing=..., first=...)`. -/
def find (anchors : List Anchor) (containing : List String) (first : Bool) :
    FindResult Anchor :=
  get_first_or_list (find_a anchors containing) first

/-- Models `BaseParser.xpath(selector, first=...)`: `selected` is the result
list of the external `lxml` XPath engine, passed straight to
`_get_first_or_list`. -/
def xpath (selected : List α) (first : Bool) : FindResult α :=
  get_first_or_list selected first

/-! ## BaseParser.links, _make_absolute, base_url, absolute_links -/

/-- The generator body of the `links` property for one `<a>` element: take
`attrs['href'].strip()` (a missing attribute raises `KeyError`, which is
caught and skips the element) and keep it unless it is empty, starts with
`'#'` while `skip_anchors` holds, or starts with `'javascript:'` or
`'mailto:'`. -/
def keep_link (skip_anchors : Bool) (a : Anchor) : Option String :=
  match a.href with
  | none => none
  | some h0 =>
    let href := pyStrip h0
    if href = "" then none
    else if strStarts "#" href && skip_anchors then none
    else if strStarts "javascript:" href then none
    else if strStarts "mailto:" href then none
    else some href

/-- Models the `links` property over `self.find('a')`; the Python `set` is
modelled by list membership. -/
def links (anchors : List Anchor) (skip_anchors : Bool) : List String :=
  anchors.filterMap (keep_link skip_anchors)

/-- Models `BaseParser._make_absolute`.  `urljoin` is the external
`urllib.parse.urljoin` the code calls in its first branch. -/
def make_absolute (urljoin : String → String → String)
    (base_url link : String) : String :=
  let parsed := urlparse link
  if parsed.netloc = "" then urljoin base_url link
  else if parsed.scheme = "" then
    urlunparse { parsed with scheme := (urlparse base_url).scheme }
  else link

/-- The URL-truncation fallback of `base_url`: drop everything in the path
after the last `/` (`'/'.join(path.split('/')[:-1]) + '/'`) and reassemble
the URL. -/
def truncate_url (url : String) : String :=
  let parsed := urlparse url
  urlunparse
    { parsed with
      path :=
        String.mk
          (joinChar '/' ((splitChar '/' parsed.path.toList).dropLast) ++ ['/']) }

/-- Models the `base_url` property: the stripped `href` of the first `<base>`
element when non-empty (a `<base>` `Element` is always truthy and a missing
`href` defaults to `''`), otherwise the document URL with its path truncated
after the last `/`. -/
def base_url (doc : Doc) : String :=
  match doc.bases.head? with
  | some bhref =>
    let result := pyStrip (bhref.getD "")
    if result ≠ "" then result else truncate_url doc.url
  | none => truncate_url doc.url

/-- Models the `absolute_links` property:
`set(self._make_absolute(link) for link in self.links)`. -/
def absolute_links (urljoin : String → String → String) (doc : Doc)
    (skip_anchors : Bool) : List String :=
  (links doc.anchors skip_anchors).map (make_absolute urljoin (base_url doc))

/-! ## HTML.next -/

/-- Python exceptions that the modelled code can raise or catch. -/
inductive PyError where
  | keyError
  | valueError
  | typeError
  | timeoutError
  | unicodeDecodeError
  | runtimeError (message : String)
  deriving DecidableEq, Repr

/-- The test a candidate passes inside `get_next`'s loop: a truthy `href` and
(`'next' in attrs.get('rel', [])`, or `'next'` a substring of some class
name, or `'page'` a substring of the href). -/
def qualifies (a : Anchor) : Bool :=
  truthyOS a.href &&
    (a.rel.any (fun r => r == "next") ||
      a.classes.any (fun c => strIn "next" c) ||
      strIn "page" (a.href.getD ""))

/-- The candidate loop of `get_next` in `HTML.next`: return the first
candidate's href passing `qualifies`, skipping candidates with falsy or
missing href and candidates failing all three heuristics. -/
def scan_candidates : List Anchor → Option String
  | [] => none
  | a :: rest =>
    if truthyOS a.href then
      if a.rel.any (fun r => r == "next") then a.href
      else if a.classes.any (fun c => strIn "next" c) then a.href
      else if strIn "page" (a.href.getD "") then a.href
      else scan_candidates rest
    else scan_candidates rest

/-- The fallback access `candidate.attrs['href']` on the last candidate:
`KeyError` when absent. -/
def href_or_keyerror : Option String → Except PyError (Option String)
  | some h => Except.ok (some h)
  | none => Except.error PyError.keyError

/-- The fallback tail of `get_next`: `candidates[-1].attrs['href']`, with the
`IndexError` of an empty list caught and mapped to `None`. -/
def fallback_of : Option Anchor → Except PyError (Option String)
  | none => Except.ok none
  | some a => href_or_keyerror a.href

/-- Models `get_next` inside `HTML.next`: the candidate loop, then the
fallback on the last candidate. -/
def get_next (candidates : List Anchor) : Except PyError (Option String) :=
  match scan_candidates candidates with
  | some h => Except.ok (some h)
  | none => fallback_of candidates.getLast?

/-- The tail of `HTML.next` after `get_next`: a falsy `__next` (`None` or
`''`) yields `None`, otherwise the value is made absolute against the page's
base URL. -/
def absolutize_step (urljoin : String → String → String) (doc : Doc) :
    Except PyError (Option String) → Except PyError (Option String)
  | Except.error e => Except.error e
  | Except.ok optNext =>
    if truthyOS optNext then
      Except.ok (some (make_absolute urljoin (base_url doc) (optNext.getD "")))
    else Except.ok none

/-- Models `HTML.next(fetch=False, next_symbol=...)` over
`find('a', containing=next_symbol)`. -/
def HTML_next (urljoin : String → String → String) (doc : Doc)
    (next_symbol : List String) : Except PyError (Option String) :=
  absolutize_step urljoin doc (get_next (find_a doc.anchors next_symbol))

/-! ## The shared DEFAULT_NEXT_SYMBOL list (HTML.__init__ / add_next_symbol)

`HTML.__init__` executes `self.next_symbol = DEFAULT_NEXT_SYMBOL`, binding the
module-level list object itself; no other statement ever rebinds the
attribute, and `add_next_symbol` mutates the referenced list in place with
`append`.  The heap is modelled explicitly: `ListRef` enumerates the list
objects a `next_symbol` attribute can reference (by the above, only the
module-level one), and `ModuleState` carries that cell's contents plus the
`next_symbol` reference of every constructed `HTML` object. -/

inductive ListRef where
  | defaultNextSymbolRef
  deriving DecidableEq, Repr

structure ModuleState where
  defaultCell : List String
  htmlObjects : List ListRef
  deriving DecidableEq, Repr

/-- Module import time: `DEFAULT_NEXT_SYMBOL = ['next', 'more', 'older']`,
no `HTML` objects yet. -/
def initState : ModuleState :=
  ⟨["next", "more", "older"], []⟩

/-- Models `HTML.__init__`'s effect on `next_symbol`:
`self.next_symbol = DEFAULT_NEXT_SYMBOL` (the object, not a copy). -/
def HTML_new (st : ModuleState) : ModuleState :=
  { st with htmlObjects := st.htmlObjects ++ [ListRef.defaultNextSymbolRef] }

/-- Dereference a list object in the heap. -/
def derefList (st : ModuleState) : ListRef → List String
  | ListRef.defaultNextSymbolRef => st.defaultCell

/-- Models `HTML.add_next_symbol(next_symbol)` called on object `obj`:
`self.next_symbol.append(next_symbol)` mutates the referenced list. -/
def add_next_symbol (st : ModuleState) (obj : Nat) (s : String) : ModuleState :=
  match st.htmlObjects.get? obj with
  | some ListRef.defaultNextSymbolRef =>
    { st with defaultCell := st.defaultCell ++ [s] }
  | none => st

/-! ## The encoding property (BaseParser.encoding)

`sniff` models the first component of `w3lib.encoding.html_to_unicode
(declared_encoding, html)`; `decode_fails e raw` models
`raw.decode(e, errors='replace')` raising `UnicodeDecodeError`.  Bytes are
modelled as `String`.  The property memoizes into `self._encoding`
(`encCache`); the overall read returns the value and the updated object
state, or `none` when the evaluation does not terminate (the inner
`self.encoding` call recursing forever on a falsy sniffed encoding). -/

structure EncState where
  default_encoding : Option String
  raw : String
  encCache : Option String
  deriving DecidableEq, Repr

/-- One read of the `encoding` property. -/
def encoding_read (sniff : Option String → String → String)
    (decode_fails : String → String → Bool) (st : EncState) :
    Option (Option String × EncState) :=
  if truthyOS st.encCache then some (st.encCache, st)
  else if st.raw ≠ "" then
    let e := sniff st.default_encoding st.raw
    if e = "" then none
    else
      let cache := if decode_fails e st.raw then st.default_encoding else some e
      some
        (if truthyOS cache then cache else st.default_encoding,
         { st with encCache := cache })
  else some (st.default_encoding, st)

/-! ## HTML.render and the retry loop

`PageLoad` models a successful browser page load inside `_async_render`:
its final `page.content()` and the value `page.evaluate` would return for a
script.  `loads i` is `none` when attempt `i` hits a `TimeoutError` (making
`_async_render` return `None`, which the caller's tuple unpacking turns into
a caught `TypeError`). -/

structure PageLoad (ρ : Type) where
  content : String
  evalScript : String → ρ

/-- Models one call of `HTML._async_render`: on timeout `None`; otherwise the
page content, the script result (`None` when no truthy script was given),
and the page when `keep_page`. -/
def async_render (script : Option String) (keep_page : Bool) :
    Option (PageLoad ρ) → Option (String × Option ρ × Option (PageLoad ρ))
  | none => none
  | some page =>
    let result : Option ρ :=
      match script with
      | some s => if s ≠ "" then some (page.evalScript s) else none
      | none => none
    some (page.content, result, if keep_page then some page else none)

/-- Truthiness of the render loop's `content` variable:
`none` models unassigned, an empty string is falsy. -/
def contentTruthy : Option (String × β) → Bool
  | none => false
  | some (c, _) => c ≠ ""

/-- One iteration of `HTML.render`'s `for` body at state `st` with attempt
outcome `a`: when `content` is already truthy the loop has broken; otherwise
a `TypeError` (`a = none`) leaves the state unchanged and a returned tuple
overwrites it. -/
def render_step (st a : Option (String × β)) : Option (String × β) :=
  match st with
  | some (c, r) =>
    if c ≠ "" then some (c, r)
    else
      match a with
      | some t => some t
      | none => some (c, r)
  | none => a

/-- The `for i in range(retries)` loop of `HTML.render`, processing attempt
indices `0, …, retries-1` in order. -/
def render_attempts (attempt : Nat → Option (String × β)) :
    Nat → Option (String × β)
  | 0 => none
  | n + 1 => render_step (render_attempts attempt n) (attempt n)

/-- Outcome of `HTML.render`: on success the rendered content (which
`self.__dict__.update(html.__dict__)` installs as the object's new HTML),
the script result, and the kept page; otherwise the raised
`MaxRetries` exception's message. -/
inductive RenderOutcome (ρ π : Type) where
  | success (html : String) (result : Option ρ) (page : Option π)
  | maxRetries (message : String)
  deriving DecidableEq

/-- Models the tail of `HTML.render` after the loop: raise `MaxRetries` on
falsy content, otherwise rebuild the HTML object from the content and return
the script result. -/
def render (retries : Nat)
    (attempt : Nat → Option (String × Option ρ × Option π)) :
    RenderOutcome ρ π :=
  match render_attempts attempt retries with
  | none => RenderOutcome.maxRetries "Unable to render the page. Try increasing timeout"
  | some (c, r, p) =>
    if c ≠ "" then RenderOutcome.success c r p
    else RenderOutcome.maxRetries "Unable to render the page. Try increasing timeout"

/-- Models `HTML.render(retries=..., script=..., keep_page=...)` given the
browser behaviour `loads` of each attempt. -/
def HTML_render (retries : Nat) (script : Option String) (keep_page : Bool)
    (loads : Nat → Option (PageLoad ρ)) : RenderOutcome ρ (PageLoad ρ) :=
  render retries (fun i => async_render script keep_page (loads i))

/-! ## Exception passthrough: BaseParser.lxml and the Retry wrapper -/

/-- Models the `lxml` property: `soup_parse(self.html)` with `ValueError`
caught and answered by `lxml.html.fromstring(self.raw_html)`; any other
exception propagates.  `soup_parse` and `fromstring` model the external
parsers. -/
def lxml_prop (soup_parse : String → Except PyError τ) (fromstring : String → τ)
    (html raw : String) : Except PyError τ :=
  match soup_parse html with
  | Except.ok t => Except.ok t
  | Except.error PyError.valueError => Except.ok (fromstring raw)
  | Except.error e => Except.error e

/-- The loop of `Retry.__call__` (src/src/requests_html.py) starting at
attempt index `i` with `n` tries left: `try: return func(...)` with a bare
`except Exception: pass`, and `RuntimeError` once the tries are exhausted. -/
def retry_from (func : Nat → Except PyError α) (i : Nat) :
    Nat → Except PyError α
  | 0 => Except.error
      (PyError.runtimeError "Unable to render the page. Try increasing timeout")
  | n + 1 =>
    match func i with
    | Except.ok a => Except.ok a
    | Except.error _ => retry_from func (i + 1) n

/-- Models the wrapper produced by `Retry(tries)` applied to a function whose
attempt `i` behaves as `func i`. -/
def retry_call (func : Nat → Except PyError α) (tries : Nat) :
    Except PyError α :=
  retry_from func 0 tries

/-! ## Supporting lemmas -/

/-- The imperative append loop of `find`'s `containing` filter builds the
filtered list in order. -/
lemma foldl_filter (p : α → Bool) (l : List α) : ∀ acc : List α,
    l.foldl (fun acc e => if p e then acc ++ [e] else acc) acc =
      acc ++ l.filter p := by
  induction l with
  | nil => intro acc; simp
  | cons x xs ih =>
    intro acc
    cases h : p x <;> simp [h, ih, List.filter_cons]

/-- With a non-empty `containing` list, `find_a` is reverse-of-filter. -/
lemma find_a_eq_filter (anchors : List Anchor) (cs : List String)
    (h : cs ≠ []) :
    find_a anchors cs = (anchors.filter (matchesContaining cs)).reverse := by
  cases cs with
  | nil => exact absurd rfl h
  | cons c cs' => simp [find_a, foldl_filter]

/-- The candidate loop of `get_next` returns the href of the first candidate
passing `qualifies`. -/
lemma scan_candidates_eq_find (l : List Anchor) :
    scan_candidates l = (l.find? qualifies).bind Anchor.href := by
  induction l with
  | nil => rfl
  | cons a rest ih =>
    cases h1 : truthyOS a.href <;>
      cases h2 : a.rel.any (fun r => r == "next") <;>
        cases h3 : a.classes.any (fun c => strIn "next" c) <;>
          cases h4 : strIn "page" (a.href.getD "") <;>
            simp [scan_candidates, qualifies, List.find?, h1, h2, h3, h4, ih]

/-- Characterization of the one-element filter of the `links` generator. -/
lemma keep_link_eq_some (a : Anchor) (h : String) :
    keep_link true a = some h ↔
      ∃ h0, a.href = some h0 ∧ h = pyStrip h0 ∧ h ≠ "" ∧
        strStarts "#" h = false ∧ strStarts "javascript:" h = false ∧
        strStarts "mailto:" h = false := by
  cases ha : a.href with
  | none => simp [keep_link, ha]
  | some h0 =>
    have hk : keep_link true a =
        (if pyStrip h0 = "" then none
         else if strStarts "#" (pyStrip h0) then none
         else if strStarts "javascript:" (pyStrip h0) then none
         else if strStarts "mailto:" (pyStrip h0) then none
         else some (pyStrip h0)) := by
      simp [keep_link, ha]
    rw [hk]
    constructor
    · intro hc
      by_cases g1 : pyStrip h0 = ""
      · rw [if_pos g1] at hc; cases hc
      rw [if_neg g1] at hc
      by_cases g2 : strStarts "#" (pyStrip h0) = true
      · rw [if_pos g2] at hc; cases hc
      rw [if_neg g2] at hc
      by_cases g3 : strStarts "javascript:" (pyStrip h0) = true
      · rw [if_pos g3] at hc; cases hc
      rw [if_neg g3] at hc
      by_cases g4 : strStarts "mailto:" (pyStrip h0) = true
      · rw [if_pos g4] at hc; cases hc
      rw [if_neg g4] at hc
      have hh : h = pyStrip h0 := (Option.some.inj hc).symm
      refine ⟨h0, rfl, hh, ?_, ?_, ?_, ?_⟩ <;> rw [hh]
      · exact g1
      · simpa using g2
      · simpa using g3
      · simpa using g4
    · rintro ⟨h0', hh0, hh, hne, hs1, hs2, hs3⟩
      have he : h = pyStrip h0 := by
        injection hh0 with he2
        rw [hh, he2]
      rw [he] at hne hs1 hs2 hs3
      rw [if_neg hne, if_neg (by simp [hs1]), if_neg (by simp [hs2]),
        if_neg (by simp [hs3]), he]

/-! ## C2: _make_absolute case analysis -/

/-- C2: `_make_absolute` acts by case analysis on the parsed link: with no
netloc it defers to `urljoin(base_url, link)`; with a netloc but no scheme it
rebuilds the link via `urlunparse` with the base URL's scheme and every other
parsed component unchanged; with both scheme and netloc it returns the link
unchanged. -/
theorem C2_theorem (uj : String → String → String) (b l : String) :
    ((urlparse l).netloc = "" → make_absolute uj b l = uj b l) ∧
    ((urlparse l).netloc ≠ "" → (urlparse l).scheme = "" →
      make_absolute uj b l =
        urlunparse ⟨(urlparse b).scheme, (urlparse l).netloc, (urlparse l).path,
          (urlparse l).params, (urlparse l).query, (urlparse l).fragment⟩) ∧
    ((urlparse l).netloc ≠ "" → (urlparse l).scheme ≠ "" →
      make_absolute uj b l = l) := by
  refine ⟨fun h1 => ?_, fun h1 h2 => ?_, fun h1 h2 => ?_⟩ <;>
    simp only [make_absolute]
  · rw [if_pos h1]
  · rw [if_neg h1, if_pos h2]
  · rw [if_neg h1, if_neg h2]

/-- Witness for C2 at concrete links covering the three cases: a relative
link, a protocol-relative link, and a complete absolute link. -/
theorem C2_witness :
    make_absolute urljoin_model "http://e.com/a/" "b/c" =
      urljoin_model "http://e.com/a/" "b/c" ∧
    make_absolute urljoin_model "http://e.com/a/" "//h/p" = "http://h/p" ∧
    make_absolute urljoin_model "http://e.com/a/" "https://x/y" =
      "https://x/y" := by
  refine ⟨(C2_theorem urljoin_model "http://e.com/a/" "b/c").1 (by decide),
    ?_, (C2_theorem urljoin_model "http://e.com/a/" "https://x/y").2.2
      (by decide) (by decide)⟩
  have h := (C2_theorem urljoin_model "http://e.com/a/" "//h/p").2.1
    (by decide) (by decide)
  exact h.trans (by decide)

/-! ## C8: find/xpath with first=True return None, with first=False a list -/

/-- C8: `find(…, first=True)` and `xpath(…, first=True)` yield the first
element, or `None` (not an exception) when there are no matches; with
`first=False` both always return the (possibly empty) match list. -/
theorem C8_theorem (anchors : List Anchor) (cs : List String)
    (sel : List String) :
    find anchors cs true = FindResult.one (find_a anchors cs).head? ∧
    find anchors cs false = FindResult.many (find_a anchors cs) ∧
    xpath sel true = FindResult.one sel.head? ∧
    xpath sel false = FindResult.many sel := by
  refine ⟨?_, rfl, ?_, rfl⟩
  · unfold find get_first_or_list
    cases find_a anchors cs <;> simp
  · unfold xpath get_first_or_list
    cases sel <;> simp

/-! ## C9: ordering of find with and without a containing filter -/

/-- C9: with a non-empty `containing` filter, `find` returns the selector
matches that contain one of the filter strings (case-insensitively) in
reverse document order; without a filter it returns the matches in document
order. -/
theorem C9_theorem (anchors : List Anchor) (cs : List String) :
    (cs ≠ [] →
      find anchors cs false =
        FindResult.many ((anchors.filter (matchesContaining cs)).reverse)) ∧
    find anchors [] false = FindResult.many anchors := by
  constructor
  · intro h
    unfold find
    rw [find_a_eq_filter anchors cs h]
    rfl
  · rfl

/-- Witness for C9: a concrete page where the two case-insensitive matches
come back in reverse document order. -/
theorem C9_witness :
    find
      [⟨some "a", [], [], "go NEXT page"⟩, ⟨some "b", [], [], "prev"⟩,
        ⟨some "c", [], [], "next2"⟩] ["next"] false =
      FindResult.many
        [⟨some "c", [], [], "next2"⟩, ⟨some "a", [], [], "go NEXT page"⟩] := by
  have h := (C9_theorem
    [⟨some "a", [], [], "go NEXT page"⟩, ⟨some "b", [], [], "prev"⟩,
      ⟨some "c", [], [], "next2"⟩] ["next"]).1 (by simp)
  exact h.trans (by decide)

/-! ## C6: the links property -/

/-- C6: `links` is exactly the set of stripped hrefs of the `<a>` elements,
omitting absent hrefs, hrefs empty after stripping, hrefs starting with `#`
(under the initial `skip_anchors = True`), and hrefs starting with
`javascript:` or `mailto:`; retained hrefs are not absolutized. -/
theorem C6_theorem (anchors : List Anchor) (h : String) :
    h ∈ links anchors true ↔
      ∃ a, a ∈ anchors ∧ ∃ h0, a.href = some h0 ∧ h = pyStrip h0 ∧ h ≠ "" ∧
        strStarts "#" h = false ∧ strStarts "javascript:" h = false ∧
        strStarts "mailto:" h = false := by
  unfold links
  rw [List.mem_filterMap]
  constructor
  · rintro ⟨a, ha, hk⟩
    exact ⟨a, ha, (keep_link_eq_some a h).mp hk⟩
  · rintro ⟨a, ha, hrest⟩
    exact ⟨a, ha, (keep_link_eq_some a h).mpr hrest⟩

/-! ## C7: absolute_links as the image of links under _make_absolute -/

/-- C7: `absolute_links` is the image of `links` under `_make_absolute`
resolved against `base_url`, and `base_url` is the stripped href of the
first `<base>` element when non-empty, otherwise the document URL with the
path truncated after its last `/`. -/
theorem C7_theorem (uj : String → String → String) (doc : Doc) (sa : Bool)
    (x : String) :
    (x ∈ absolute_links uj doc sa ↔
      ∃ l, l ∈ links doc.anchors sa ∧
        x = make_absolute uj (base_url doc) l) ∧
    (∀ bh, doc.bases.head? = some bh →
      (pyStrip (bh.getD "") ≠ "" → base_url doc = pyStrip (bh.getD "")) ∧
      (pyStrip (bh.getD "") = "" → base_url doc = truncate_url doc.url)) ∧
    (doc.bases.head? = none → base_url doc = truncate_url doc.url) := by
  refine ⟨?_, fun bh hb => ⟨fun hne => ?_, fun he => ?_⟩, fun hn => ?_⟩
  · unfold absolute_links
    rw [List.mem_map]
    constructor
    · rintro ⟨l, hl, hx⟩
      exact ⟨l, hl, hx.symm⟩
    · rintro ⟨l, hl, hx⟩
      exact ⟨l, hl, hx.symm⟩
  · unfold base_url
    rw [hb]
    simp [hne]
  · unfold base_url
    rw [hb]
    simp [he]
  · unfold base_url
    rw [hn]

/-- Witness for C7: a page with a `<base>` tag, a page without one, and a
concrete absolutized link membership. -/
theorem C7_witness :
    base_url ⟨[⟨some "x", [], [], "t"⟩], [some " http://b.example/ "],
        "http://h/p/q"⟩ = "http://b.example/" ∧
    base_url ⟨[], [], "http://h/p/q"⟩ = "http://h/p/" ∧
    "http://b.example/x" ∈
      absolute_links urljoin_model
        ⟨[⟨some "x", [], [], "t"⟩], [some " http://b.example/ "],
          "http://h/p/q"⟩ true := by
  refine ⟨?_, ?_, ?_⟩
  · have h := ((C7_theorem urljoin_model
      ⟨[⟨some "x", [], [], "t"⟩], [some " http://b.example/ "],
        "http://h/p/q"⟩ true "").2.1 (some " http://b.example/ ") rfl).1
      (by decide)
    exact h.trans (by decide)
  · have h := (C7_theorem urljoin_model ⟨[], [], "http://h/p/q"⟩ true "").2.2
      rfl
    exact h.trans (by decide)
  · exact ((C7_theorem urljoin_model
      ⟨[⟨some "x", [], [], "t"⟩], [some " http://b.example/ "],
        "http://h/p/q"⟩ true "http://b.example/x").1).mpr
      ⟨"x", by decide, by decide⟩

/-! ## C1: HTML.next -/

/-- Counterexample to C1 as stated: on a page whose only anchor matches the
next-symbol text but carries the empty href, there is a scanned candidate,
no candidate qualifies, and `next` returns `None` instead of the last
candidate's href made absolute (an empty `__next` is falsy, so the
absolutization step is skipped). -/
theorem C1_counterexample :
    find_a [⟨some "", [], [], "next"⟩] ["next"] =
      [⟨some "", [], [], "next"⟩] ∧
    qualifies ⟨some "", [], [], "next"⟩ = false ∧
    HTML_next urljoin_model ⟨[⟨some "", [], [], "next"⟩], [],
        "http://example.com/a/"⟩ ["next"] = Except.ok none ∧
    (Except.ok none : Except PyError (Option String)) ≠
      Except.ok (some (make_absolute urljoin_model
        (base_url ⟨[⟨some "", [], [], "next"⟩], [], "http://example.com/a/"⟩)
        "")) := by
  refine ⟨rfl, rfl, rfl, ?_⟩
  intro hcontra
  exact Option.noConfusion (Except.ok.inj hcontra)

/-- C1 as amended: `HTML.next(fetch=False, next_symbol=…)` returns, made
absolute against the page's base URL, the href of the first candidate of
`find('a', containing=next_symbol)` that passes the heuristics (non-empty
href together with `'next'` in `rel`, `'next'` in a class name, or `'page'`
in the href); when no candidate qualifies it falls back to the last
candidate: its href made absolute when present and non-empty, `None` when it
is the empty string, and a `KeyError` when the attribute is missing; it
returns `None` when there are no candidates at all. -/
theorem C1_amended_theorem (uj : String → String → String) (doc : Doc)
    (ns : List String) :
    HTML_next uj doc ns =
      (match (find_a doc.anchors ns).find? qualifies with
       | some a =>
         Except.ok (some (make_absolute uj (base_url doc) (a.href.getD "")))
       | none =>
         match (find_a doc.anchors ns).getLast? with
         | none => Except.ok none
         | some a =>
           match a.href with
           | none => Except.error PyError.keyError
           | some h =>
             if h = "" then Except.ok none
             else Except.ok (some (make_absolute uj (base_url doc) h))) := by
  unfold HTML_next get_next
  rw [scan_candidates_eq_find]
  cases hf : (find_a doc.anchors ns).find? qualifies with
  | some a =>
    have hq : qualifies a = true := List.find?_some hf
    have htr : truthyOS a.href = true := by
      unfold qualifies at hq
      rw [Bool.and_eq_true] at hq
      exact hq.1
    cases hhref : a.href with
    | none => rw [hhref] at htr; cases htr
    | some h =>
      rw [hhref] at htr
      simp [absolutize_step, hhref, htr]
  | none =>
    simp only [Option.bind_none, Option.none_bind]
    cases hl : (find_a doc.anchors ns).getLast? with
    | none => rfl
    | some a =>
      cases hhref : a.href with
      | none => simp [fallback_of, href_or_keyerror, hhref, absolutize_step]
      | some h =>
        by_cases hne : h = ""
        · subst hne
          simp [fallback_of, href_or_keyerror, hhref, absolutize_step, truthyOS]
        · simp [fallback_of, href_or_keyerror, hhref, absolutize_step,
            truthyOS, hne]

/-- Witness for C1 (amended) on a page exercising the `'page'`-in-href
heuristic: the earlier candidate in scan order wins and is absolutized. -/
theorem C1_witness :
    HTML_next urljoin_model
      ⟨[⟨some "/page/2", [], [], "more"⟩, ⟨some "/contact", [], [], "more info"⟩],
        [], "http://example.com/a/b"⟩ ["more"] =
      Except.ok (some "http://example.com/page/2") := by
  have h := C1_amended_theorem urljoin_model
    ⟨[⟨some "/page/2", [], [], "more"⟩, ⟨some "/contact", [], [], "more info"⟩],
      [], "http://example.com/a/b"⟩ ["more"]
  exact h.trans rfl

/-! ## C10: the shared DEFAULT_NEXT_SYMBOL list -/

/-- C10: after `add_next_symbol s` on any existing `HTML` object, every
`HTML` object — already constructed or constructed afterwards — has a
`next_symbol` referencing the one module-level list that now contains `s`,
and the candidate search of the pagination loop picks up anchors whose text
contains `s`. -/
theorem C10_theorem (st : ModuleState) (a : Nat) (s : String)
    (ha : a < st.htmlObjects.length) :
    (∀ r, r ∈ (add_next_symbol st a s).htmlObjects →
      s ∈ derefList (add_next_symbol st a s) r) ∧
    (∀ r, r ∈ (HTML_new (add_next_symbol st a s)).htmlObjects →
      s ∈ derefList (HTML_new (add_next_symbol st a s)) r) ∧
    (HTML_new (add_next_symbol st a s)).htmlObjects =
      (add_next_symbol st a s).htmlObjects ++ [ListRef.defaultNextSymbolRef] ∧
    (∀ anchors (e : Anchor), e ∈ anchors →
      strIn (strLower s) (strLower e.fullText) = true →
      e ∈ find_a anchors
        (derefList (add_next_symbol st a s) ListRef.defaultNextSymbolRef)) := by
  have hget : st.htmlObjects.get? a = some ListRef.defaultNextSymbolRef := by
    rw [List.get?_eq_get ha]
  have hadd : add_next_symbol st a s =
      { st with defaultCell := st.defaultCell ++ [s] } := by
    unfold add_next_symbol
    rw [hget]
  have hcell : derefList (add_next_symbol st a s)
      ListRef.defaultNextSymbolRef = st.defaultCell ++ [s] := by
    rw [hadd]
    rfl
  have hmem : s ∈ st.defaultCell ++ [s] := by simp
  refine ⟨?_, ?_, rfl, ?_⟩
  · intro r _
    cases r
    rw [hcell]
    exact hmem
  · intro r _
    cases r
    rw [show derefList (HTML_new (add_next_symbol st a s))
        ListRef.defaultNextSymbolRef =
        derefList (add_next_symbol st a s) ListRef.defaultNextSymbolRef
      from rfl, hcell]
    exact hmem
  · intro anchors e he hmatch
    rw [hcell]
    have hne : (st.defaultCell ++ [s]) ≠ [] := by simp
    rw [find_a_eq_filter anchors (st.defaultCell ++ [s]) hne]
    rw [List.mem_reverse, List.mem_filter]
    refine ⟨he, ?_⟩
    unfold matchesContaining
    rw [List.any_eq_true]
    exact ⟨s, hmem, hmatch⟩

/-- Witness for C10: two objects exist, a third is built after the append,
and all of them see the new symbol; an anchor containing it is found. -/
theorem C10_witness :
    "paged" ∈ derefList (add_next_symbol (HTML_new (HTML_new initState)) 0
      "paged") ListRef.defaultNextSymbolRef ∧
    (⟨some "/p2", [], [], "see paged list"⟩ : Anchor) ∈
      find_a [⟨some "/p2", [], [], "see paged list"⟩]
        (derefList (add_next_symbol (HTML_new (HTML_new initState)) 0 "paged")
          ListRef.defaultNextSymbolRef) := by
  constructor
  · exact (C10_theorem (HTML_new (HTML_new initState)) 0 "paged"
      (by decide)).1 ListRef.defaultNextSymbolRef (by decide)
  · exact (C10_theorem (HTML_new (HTML_new initState)) 0 "paged"
      (by decide)).2.2.2 [⟨some "/p2", [], [], "see paged list"⟩]
      ⟨some "/p2", [], [], "see paged list"⟩ (by simp) (by decide)

/-! ## C3: the encoding property -/

/-- C3: on a freshly constructed parser with non-empty raw HTML, reading
`encoding` sniffs the encoding from the content with the default encoding as
declared hint, falls back to the default encoding when decoding with the
sniffed encoding fails, caches the outcome, and every subsequent read
returns the same value.  (`w3lib.encoding.html_to_unicode` always determines
a non-empty encoding, hypothesis `h3`.) -/
theorem C3_theorem (sniff : Option String → String → String)
    (decode_fails : String → String → Bool) (st : EncState)
    (h1 : st.encCache = none) (h2 : st.raw ≠ "")
    (h3 : sniff st.default_encoding st.raw ≠ "") :
    encoding_read sniff decode_fails st =
      some
        ((if decode_fails (sniff st.default_encoding st.raw) st.raw then
            st.default_encoding
          else some (sniff st.default_encoding st.raw)),
         { st with
            encCache :=
              if decode_fails (sniff st.default_encoding st.raw) st.raw then
                st.default_encoding
              else some (sniff st.default_encoding st.raw) }) ∧
    encoding_read sniff decode_fails
        { st with
          encCache :=
            if decode_fails (sniff st.default_encoding st.raw) st.raw then
              st.default_encoding
            else some (sniff st.default_encoding st.raw) } =
      some
        ((if decode_fails (sniff st.default_encoding st.raw) st.raw then
            st.default_encoding
          else some (sniff st.default_encoding st.raw)),
         { st with
            encCache :=
              if decode_fails (sniff st.default_encoding st.raw) st.raw then
                st.default_encoding
              else some (sniff st.default_encoding st.raw) }) := by
  by_cases hdf : decode_fails (sniff st.default_encoding st.raw) st.raw = true
  · constructor
    · simp [encoding_read, h1, h2, h3, truthyOS, hdf]
    · by_cases htd : truthyOS st.default_encoding = true
      · simp [encoding_read, hdf, htd]
      · simp [encoding_read, hdf, htd, h2, h3, truthyOS]
  · constructor
    · simp [encoding_read, h1, h2, h3, truthyOS, hdf]
    · simp [encoding_read, h2, h3, truthyOS, hdf]

/-- Witness for C3: a concrete parser state with successful decoding, and a
second one whose decode fails, falling back to the default encoding. -/
theorem C3_witness :
    encoding_read (fun _ _ => "utf-8") (fun _ _ => false)
        ⟨some "latin-1", "<p>", none⟩ =
      some (some "utf-8", ⟨some "latin-1", "<p>", some "utf-8"⟩) ∧
    encoding_read (fun _ _ => "utf-8") (fun _ _ => false)
        ⟨some "latin-1", "<p>", some "utf-8"⟩ =
      some (some "utf-8", ⟨some "latin-1", "<p>", some "utf-8"⟩) ∧
    encoding_read (fun _ _ => "utf-8") (fun _ _ => true)
        ⟨some "latin-1", "<p>", none⟩ =
      some (some "latin-1", ⟨some "latin-1", "<p>", some "latin-1"⟩) := by
  have h1 := C3_theorem (fun _ _ => "utf-8") (fun _ _ => false)
    ⟨some "latin-1", "<p>", none⟩ rfl (by decide) (by decide)
  have h2 := C3_theorem (fun _ _ => "utf-8") (fun _ _ => true)
    ⟨some "latin-1", "<p>", none⟩ rfl (by decide) (by decide)
  exact ⟨h1.1.trans rfl, (h1.2).trans rfl, h2.1.trans rfl⟩

/-! ## C4: the render retry loop -/

/-- Attempts before the first truthy content leave the loop state without
truthy content. -/
lemma render_attempts_not_truthy (attempt : Nat → Option (String × β)) :
    ∀ n, (∀ i, i < n → contentTruthy (attempt i) = false) →
      contentTruthy (render_attempts attempt n) = false := by
  intro n
  induction n with
  | zero => intro _; rfl
  | succ m ih =>
    intro h
    have hm := ih (fun i hi => h i (Nat.lt_succ_of_lt hi))
    have ha := h m (Nat.lt_succ_self m)
    unfold render_attempts
    cases hr : render_attempts attempt m with
    | none =>
      rw [hr] at hm
      simp [render_step, ha]
    | some p =>
      obtain ⟨c, r⟩ := p
      rw [hr] at hm
      have hc : c = "" := by simpa [contentTruthy] using hm
      subst hc
      cases hat : attempt m with
      | none => simp [render_step, contentTruthy]
      | some t =>
        rw [hat] at ha
        simp [render_step, ha]

/-- The loop returns the first attempt that yields truthy content. -/
lemma render_attempts_first (attempt : Nat → Option (String × β)) :
    ∀ n j, j < n → contentTruthy (attempt j) = true →
      (∀ i, i < j → contentTruthy (attempt i) = false) →
      render_attempts attempt n = attempt j := by
  intro n
  induction n with
  | zero => intro j hj; exact absurd hj (Nat.not_lt_zero j)
  | succ m ih =>
    intro j hj hT hF
    unfold render_attempts
    rcases Nat.lt_succ_iff_lt_or_eq.mp hj with hlt | heq
    · rw [ih j hlt hT hF]
      cases hat : attempt j with
      | none => rw [hat] at hT; cases hT
      | some p =>
        obtain ⟨c, r⟩ := p
        rw [hat] at hT
        have hc : c ≠ "" := by simpa [contentTruthy] using hT
        simp [render_step, hc]
    · subst heq
      have hm : contentTruthy (render_attempts attempt j) = false :=
        render_attempts_not_truthy attempt j hF
      cases hr : render_attempts attempt j with
      | none => simp [render_step]
      | some p =>
        obtain ⟨c, r⟩ := p
        rw [hr] at hm
        have hc : c = "" := by simpa [contentTruthy] using hm
        subst hc
        cases hat : attempt j with
        | none => rw [hat] at hT; cases hT
        | some t => simp [render_step]

/-- C4: `render` makes up to `retries` attempts, stops at the first attempt
that yields page content, raises `MaxRetries` with message
`'Unable to render the page. Try increasing timeout'` when no attempt does,
and on success carries the rendered content (installed as the object's HTML)
and the script's value — `None` when no script was given. -/
theorem C4_theorem {ρ : Type} (retries : Nat) (script : Option String)
    (kp : Bool) (loads : Nat → Option (PageLoad ρ)) :
    ((∀ i, i < retries → ∀ pg, loads i = some pg → pg.content = "") →
      HTML_render retries script kp loads =
        RenderOutcome.maxRetries
          "Unable to render the page. Try increasing timeout") ∧
    (∀ j pg, j < retries → loads j = some pg → pg.content ≠ "" →
      (∀ i, i < j → ∀ pg2, loads i = some pg2 → pg2.content = "") →
      HTML_render retries script kp loads =
        RenderOutcome.success pg.content
          (match script with
           | none => none
           | some s => if s ≠ "" then some (pg.evalScript s) else none)
          (if kp then some pg else none)) := by
  constructor
  · intro hall
    have hfalse : ∀ i, i < retries →
        contentTruthy (async_render script kp (loads i)) = false := by
      intro i hi
      cases hl : loads i with
      | none => rfl
      | some pg =>
        have hc := hall i hi pg hl
        simp [async_render, contentTruthy, hc]
    have hnt := render_attempts_not_truthy
      (fun i => async_render script kp (loads i)) retries hfalse
    unfold HTML_render render
    cases hr : render_attempts (fun i => async_render script kp (loads i))
        retries with
    | none => rfl
    | some p =>
      obtain ⟨c, r, pgo⟩ := p
      rw [hr] at hnt
      have hc : c = "" := by simpa [contentTruthy] using hnt
      subst hc
      simp
  · intro j pg hj hl hc hprev
    have hT : contentTruthy (async_render script kp (loads j)) = true := by
      simp [async_render, hl, contentTruthy, hc]
    have hF : ∀ i, i < j →
        contentTruthy (async_render script kp (loads i)) = false := by
      intro i hi
      cases hli : loads i with
      | none => rfl
      | some pg2 =>
        have hc2 := hprev i hi pg2 hli
        simp [async_render, contentTruthy, hc2]
    have hr := render_attempts_first
      (fun i => async_render script kp (loads i)) retries j hj hT hF
    unfold HTML_render render
    rw [hr]
    simp [async_render, hl, hc]
    cases script <;> rfl

/-- Witness for C4: with two timeouts followed by a successful load, `render`
succeeds with that load's content and script value; with only timeouts it
raises the `MaxRetries` message. -/
theorem C4_witness :
    HTML_render 3 (some "s") false
        (fun i => if i < 2 then none
          else some (⟨"<p>done</p>", fun _ => (7 : Nat)⟩ : PageLoad Nat)) =
      RenderOutcome.success "<p>done</p>" (some 7) none ∧
    HTML_render 2 none false (fun _ => (none : Option (PageLoad Nat))) =
      RenderOutcome.maxRetries
        "Unable to render the page. Try increasing timeout" := by
  constructor
  · have h := (C4_theorem 3 (some "s") false
      (fun i => if i < 2 then none
        else some (⟨"<p>done</p>", fun _ => (7 : Nat)⟩ : PageLoad Nat))).2
      2 ⟨"<p>done</p>", fun _ => (7 : Nat)⟩ (by decide) (by simp)
      (by decide) (by intro i hi pg2 hpg2; simp [hi] at hpg2)
    exact h.trans rfl
  · exact (C4_theorem 2 none false
      (fun _ => (none : Option (PageLoad Nat)))).1
      (by intro i _ pg hpg; cases hpg)

/-! ## C5: exception passthrough -/

/-- Exhausting the retry loop from any start index raises `RuntimeError`. -/
lemma retry_from_all_error (func : Nat → Except PyError α) :
    ∀ n i, (∀ k, k < n → ∃ e, func (i + k) = Except.error e) →
      retry_from func i n =
        Except.error (PyError.runtimeError
          "Unable to render the page. Try increasing timeout") := by
  intro n
  induction n with
  | zero => intro i _; rfl
  | succ m ih =>
    intro i h
    obtain ⟨e, he⟩ := h 0 (Nat.succ_pos m)
    rw [Nat.add_zero] at he
    unfold retry_from
    rw [he]
    refine ih (i + 1) (fun k hk => ?_)
    obtain ⟨e2, he2⟩ := h (k + 1) (Nat.succ_lt_succ hk)
    exact ⟨e2, by rw [show i + 1 + k = i + (k + 1) by omega]; exact he2⟩

/-- The retry loop returns the first successful attempt. -/
lemma retry_from_first_ok (func : Nat → Except PyError α) :
    ∀ n i j a, j < n → func (i + j) = Except.ok a →
      (∀ k, k < j → ∃ e, func (i + k) = Except.error e) →
      retry_from func i n = Except.ok a := by
  intro n
  induction n with
  | zero => intro i j a hj; exact absurd hj (Nat.not_lt_zero j)
  | succ m ih =>
    intro i j a hj hok hprev
    cases j with
    | zero =>
      rw [Nat.add_zero] at hok
      unfold retry_from
      rw [hok]
    | succ j' =>
      obtain ⟨e, he⟩ := hprev 0 (Nat.succ_pos j')
      rw [Nat.add_zero] at he
      unfold retry_from
      rw [he]
      refine ih (i + 1) j' a (Nat.lt_of_succ_lt_succ hj) ?_ ?_
      · rw [show i + 1 + j' = i + (j' + 1) by omega]
        exact hok
      · intro k hk
        obtain ⟨e2, he2⟩ := hprev (k + 1) (Nat.succ_lt_succ hk)
        exact ⟨e2, by rw [show i + 1 + k = i + (k + 1) by omega]; exact he2⟩

/-- Counterexample to C5 as stated: the retry wrapper absorbs a `ValueError`
— not a timeout — on every attempt and converts it into `RuntimeError`, and
the `lxml` property catches the soup parser's `ValueError` and answers with
the fallback parser instead of letting it surface. -/
theorem C5_counterexample :
    retry_call (fun _ => (Except.error PyError.valueError : Except PyError Nat))
        3 =
      Except.error (PyError.runtimeError
        "Unable to render the page. Try increasing timeout") ∧
    PyError.valueError ≠ PyError.timeoutError ∧
    lxml_prop (fun _ => Except.error PyError.valueError) (fun _ => (0 : Nat))
        "<bad" "<bad" = Except.ok 0 := by
  exact ⟨rfl, by decide, rfl⟩

/-- C5 as amended: error handling is mostly passthrough, except that the
`lxml` property catches the soup parser's `ValueError` and falls back to
`lxml.html.fromstring` (other exceptions surface unchanged), and the
rendering retry wrapper absorbs *every* exception an attempt raises — not
only timeout-related ones — returning the first success and raising
`RuntimeError('Unable to render the page. Try increasing timeout')` once its
tries are exhausted. -/
theorem C5_amended_theorem {α τ : Type} (tries : Nat)
    (func : Nat → Except PyError α) (soup : String → Except PyError τ)
    (fromstr : String → τ) (html raw : String) :
    ((∀ i, i < tries → ∃ e, func i = Except.error e) →
      retry_call func tries =
        Except.error (PyError.runtimeError
          "Unable to render the page. Try increasing timeout")) ∧
    (∀ j a, j < tries → func j = Except.ok a →
      (∀ i, i < j → ∃ e, func i = Except.error e) →
      retry_call func tries = Except.ok a) ∧
    (∀ t, soup html = Except.ok t →
      lxml_prop soup fromstr html raw = Except.ok t) ∧
    (soup html = Except.error PyError.valueError →
      lxml_prop soup fromstr html raw = Except.ok (fromstr raw)) ∧
    (∀ e, e ≠ PyError.valueError → soup html = Except.error e →
      lxml_prop soup fromstr html raw = Except.error e) := by
  refine ⟨?_, ?_, ?_, ?_, ?_⟩
  · intro h
    exact retry_from_all_error func tries 0
      (fun k hk => by simpa using h k hk)
  · intro j a hj hok hprev
    exact retry_from_first_ok func tries 0 j a hj (by simpa using hok)
      (fun k hk => by simpa using hprev k hk)
  · intro t ht
    simp [lxml_prop, ht]
  · intro ht
    simp [lxml_prop, ht]
  · intro e hne ht
    rw [lxml_prop, ht]
    cases e with
    | valueError => exact absurd rfl hne
    | keyError => rfl
    | typeError => rfl
    | timeoutError => rfl
    | unicodeDecodeError => rfl
    | runtimeError m => rfl

/-- Witness for C5 (amended): a first success after two absorbed timeouts,
an exhausted loop, and the three `lxml` branches at concrete parsers. -/
theorem C5_witness :
    retry_call
        (fun i => if i < 2 then Except.error PyError.timeoutError
          else Except.ok (42 : Nat)) 3 = Except.ok 42 ∧
    retry_call (fun _ => (Except.error PyError.keyError : Except PyError Nat))
        2 =
      Except.error (PyError.runtimeError
        "Unable to render the page. Try increasing timeout") ∧
    lxml_prop (fun _ => Except.ok (1 : Nat)) (fun _ => 5) "h" "r" =
      Except.ok 1 ∧
    lxml_prop (fun _ => Except.error PyError.valueError) (fun _ => (5 : Nat))
      "h" "r" = Except.ok 5 ∧
    lxml_prop (fun _ => Except.error PyError.keyError) (fun _ => (5 : Nat))
      "h" "r" = Except.error PyError.keyError := by
  refine ⟨?_, ?_, ?_, ?_, ?_⟩
  · exact (C5_amended_theorem 3
      (fun i => if i < 2 then Except.error PyError.timeoutError
        else Except.ok (42 : Nat)) (fun _ => Except.ok (0 : Nat)) (fun _ => 0)
      "" "").2.1 2 42 (by decide) (by simp)
      (fun i hi => ⟨PyError.timeoutError, by simp [hi]⟩)
  · exact (C5_amended_theorem 2
      (fun _ => (Except.error PyError.keyError : Except PyError Nat))
      (fun _ => Except.ok (0 : Nat)) (fun _ => 0) "" "").1
      (fun i _ => ⟨PyError.keyError, rfl⟩)
  · exact (C5_amended_theorem 1 (fun _ => (Except.ok 0 : Except PyError Nat))
      (fun _ => Except.ok (1 : Nat)) (fun _ => 5) "h" "r").2.2.1 1 rfl
  · exact (C5_amended_theorem 1 (fun _ => (Except.ok 0 : Except PyError Nat))
      (fun _ => Except.error PyError.valueError) (fun _ => (5 : Nat)) "h"
      "r").2.2.2.1 rfl
  · exact (C5_amended_theorem 1 (fun _ => (Except.ok 0 : Except PyError Nat))
      (fun _ => Except.error PyError.keyError) (fun _ => (5 : Nat)) "h"
      "r").2.2.2.2 PyError.keyError (by decide) rfl

end RequestsHTML
